import Mathlib

/-!
Verification development for `src/cellopt/shelxlParser.py` (dkratzert/CellOpt).

The Python module is shallowly embedded: pure computations become Lean
functions over `ℚ` (CPython floats are modelled as exact rationals; every
numeric literal appearing in the claims is exactly representable), the
mutable `ShelxlMolecule` aggregate is threaded explicitly through the
parsing state machine, and fallible code (`float(...)`, indexing, dict
`KeyError`) returns `Except`/`Option`.  String handling mirrors the CPython
primitives the source uses (`str.split`, `str.partition`, `str.rstrip`,
`str.replace`, slicing), restricted to the single-character separators the
source actually passes.
-/

namespace CellOpt

/-! ### Python string primitives

All separators used by the source (`','`, `'/'`, `' '`, `'x'`, `'y'`, `'z'`,
`'='`, `'\n'`) are single characters, so the helpers below work on one
`Char` at a time, operating on the underlying character list. -/

namespace PyStr

/-- `str.lower()` (ASCII suffices for the source's inputs). -/
def lower (s : String) : String := ⟨s.data.map Char.toLower⟩

/-- `str.upper()`. -/
def upper (s : String) : String := ⟨s.data.map Char.toUpper⟩

/-- `str.replace(c, '')`: drop every occurrence of character `c`. -/
def removeChar (c : Char) (s : String) : String := ⟨s.data.filter (· ≠ c)⟩

/-- Auxiliary for `splitChar`. -/
def splitCharAux (c : Char) : List Char → List Char → List (List Char)
  | [], acc => [acc.reverse]
  | h :: t, acc =>
    if h = c then acc.reverse :: splitCharAux c t [] else splitCharAux c t (h :: acc)

/-- `str.split(c)` for a single-character separator (keeps empty fields). -/
def splitChar (c : Char) (s : String) : List String :=
  (splitCharAux c s.data []).map (fun l => ⟨l⟩)

/-- Auxiliary for `partitionChar`: split at the first occurrence of `c`. -/
def partitionCharAux (c : Char) : List Char → List Char → Option (List Char × List Char)
  | [], _ => none
  | h :: t, acc => if h = c then some (acc.reverse, t) else partitionCharAux c t (h :: acc)

/-- `str.partition(c)` for a single-character separator: `none` when `c` is
absent, otherwise the text before and after its first occurrence. -/
def partitionChar (c : Char) (s : String) : Option (String × String) :=
  (partitionCharAux c s.data []).map (fun p => (⟨p.1⟩, ⟨p.2⟩))

/-- Auxiliary for `wsSplit`. -/
def wsSplitAux : List Char → List Char → List (List Char)
  | [], acc => if acc.isEmpty then [] else [acc.reverse]
  | h :: t, acc =>
    if h.isWhitespace then
      if acc.isEmpty then wsSplitAux t [] else acc.reverse :: wsSplitAux t []
    else wsSplitAux t (h :: acc)

/-- `str.split()` with no argument: split on whitespace runs, no empty fields. -/
def wsSplit (s : String) : List String := (wsSplitAux s.data []).map (fun l => ⟨l⟩)

/-- `str.rstrip()`: drop trailing whitespace. -/
def rstripWs (s : String) : String := ⟨(s.data.reverse.dropWhile Char.isWhitespace).reverse⟩

/-- `str.rstrip('\n')`: drop trailing newline characters. -/
def rstripNl (s : String) : String := ⟨(s.data.reverse.dropWhile (· = '\n')).reverse⟩

/-- Python slicing `s[:n]`. -/
def takeN (s : String) (n : ℕ) : String := ⟨s.data.take n⟩

/-- Python slicing `s[n:]`. -/
def dropN (s : String) (n : ℕ) : String := ⟨s.data.drop n⟩

/-- Python slicing `s[:-1]`. -/
def dropLast1 (s : String) : String := ⟨s.data.dropLast⟩

/-- `s[0]`, partially: the first character, if any. -/
def firstChar (s : String) : Option Char := s.data.head?

/-- `s.endswith(c)` for a single character. -/
def endsEq (s : String) (c : Char) : Bool := s.data.getLast? = some c

/-- `c in s` for a single character. -/
def containsChar (c : Char) (s : String) : Bool := s.data.contains c

end PyStr

/-! ### Python numeric conversions -/

/-- Numeric value of a digit list (most significant first). -/
def digitsVal (l : List Char) : ℕ :=
  l.foldl (fun a c => a * 10 + (c.toNat - '0'.toNat)) 0

/-- `float(s)` for the decimal forms the source feeds it: optional sign,
digits, optional decimal point (`'1'`, `'1.54'`, `'.5'`, `'5.'`).
Exponent/`inf`/`nan` forms are not modelled; no claim exercises them.
`none` models `ValueError`. -/
def pyFloat (s : String) : Option ℚ :=
  let step : ℚ × List Char → Option ℚ := fun (sg, cs) =>
    let ip := cs.takeWhile Char.isDigit
    let rest := cs.dropWhile Char.isDigit
    match rest with
    | [] => if ip.isEmpty then none else some (sg * (digitsVal ip : ℚ))
    | '.' :: fp =>
      if fp.all Char.isDigit ∧ (ip ≠ [] ∨ fp ≠ []) then
        some (sg * ((digitsVal ip : ℚ) + (digitsVal fp : ℚ) / (10 ^ fp.length : ℚ)))
      else none
    | _ => none
  match s.data with
  | '-' :: t => step (-1, t)
  | '+' :: t => step (1, t)
  | cs => step (1, cs)

/-- `int(s)`: optional sign and digits. `none` models `ValueError`. -/
def pyInt (s : String) : Option ℤ :=
  let digits : List Char → Option ℕ := fun cs =>
    if cs ≠ [] ∧ cs.all Char.isDigit then some (digitsVal cs) else none
  match s.data with
  | '-' :: t => (digits t).map (fun n => -(n : ℤ))
  | '+' :: t => (digits t).map (fun n => (n : ℤ))
  | cs => (digits cs).map (fun n => (n : ℤ))

/-- `SymmetryElement._float`: try `float(string)`; on failure, if the string
contains `'/'`, evaluate `string.replace('/', './') + '.'`, i.e. the
left-associated chain of float divisions (`'1/2'` ↦ `1./2.`).  Division by
zero (`ZeroDivisionError`) and unparsable fragments (`SyntaxError` inside
`eval`) are conflated with the `ValueError` path into `none`: in the source
all of them leave no usable translation component. -/
def pyFloatFull (s : String) : Option ℚ :=
  match pyFloat s with
  | some q => some q
  | none =>
    if PyStr.containsChar '/' s then
      match (PyStr.splitChar '/' s).mapM (fun p => pyFloat (p ++ ".")) with
      | some (h :: t) => t.foldlM (fun acc d => if d = 0 then none else some (acc / d)) h
      | _ => none
    else none

/-- Python's floored `%` on floats: `a % b = a - b * floor(a / b)`. -/
def pyMod (a b : ℚ) : ℚ := a - b * (Rat.floor (a / b) : ℚ)

/-- `int(x)` on a float: truncation toward zero. -/
def pyTrunc (q : ℚ) : ℤ := if 0 ≤ q then Rat.floor q else -(Rat.floor (-q))

/-- Decimal digits of a fractional part `r ∈ [0, 1)`, stopping when it
terminates (the fuel bounds the expansion; every value the claims reach
terminates within it, matching CPython's shortest-round-trip `str`). -/
def fracDigits : ℕ → ℚ → List Char
  | 0, _ => []
  | fuel + 1, r =>
    let r10 := r * 10
    let d := Rat.floor r10
    let c := Char.ofNat ('0'.toNat + d.toNat)
    let rest := r10 - (d : ℚ)
    if rest = 0 then [c] else c :: fracDigits fuel rest

/-- `str(x)` on a (numpy) float, for the finite-decimal values the source
serializes: sign, integer part, `'.'`, fractional digits (`'0'` when the
value is integral), as in `str(0.5) = '0.5'`, `str(1.0) = '1.0'`. -/
def floatStr (q : ℚ) : String :=
  let sgn : String := if q < 0 then "-" else ""
  let a := if q < 0 then -q else q
  let ip := Rat.floor a
  let fp := a - (ip : ℚ)
  sgn ++ toString ip ++ "." ++ (if fp = 0 then "0" else ⟨fracDigits 40 fp⟩)

/-! ### Symmetry algebra (`SymmetryElement`) -/

/-- A length-3 vector. -/
structure Vec3 (α : Type) where
  x : α
  y : α
  z : α
deriving DecidableEq, Repr

/-- A 3×3 integer grid, stored row by row. -/
structure Mat3 where
  r0 : Vec3 ℤ
  r1 : Vec3 ℤ
  r2 : Vec3 ℤ
deriving DecidableEq, Repr

/-- Negate every entry of a `Mat3` (the `matrix *= -1` of the centric branch). -/
def Mat3.neg (m : Mat3) : Mat3 :=
  ⟨⟨-m.r0.x, -m.r0.y, -m.r0.z⟩, ⟨-m.r1.x, -m.r1.y, -m.r1.z⟩, ⟨-m.r2.x, -m.r2.y, -m.r2.z⟩⟩

/-- Negate a rational vector (the `trans *= -1` of the centric branch). -/
def Vec3.negQ (v : Vec3 ℚ) : Vec3 ℚ := ⟨-v.x, -v.y, -v.z⟩

/-- `SymmetryElement`: the 3×3 coefficient grid plus the translation vector.
As in the source, the stored `matrix` is `np.matrix(lines).transpose()`,
i.e. the transpose of the row-per-axis-expression coefficient matrix.
The diagnostic `ID` counter is not modelled (no claim mentions it). -/
structure SymmetryElement where
  matrix : Mat3
  trans : Vec3 ℚ
deriving DecidableEq, Repr

namespace SymmetryElement

/-- `SymmetryElement._partition`: scan `symm` for the axis character `char`;
absent ⇒ coefficient 0 and the text is untouched; present ⇒ coefficient −1
when the preceding character is `'-'` (that sign is consumed), else +1 (and
every `'+'` is scrubbed from the remainder). -/
def partitionSign (symm : String) (char : Char) : ℤ × String :=
  match PyStr.partitionChar char symm with
  | none => (0, symm)
  | some (before, after) =>
    -- `sign = parts[0][-1] if parts[0] else '+'`; only `'-'` selects the minus branch
    if before.data.getLast? = some '-' then (-1, ⟨before.data.dropLast⟩ ++ after)
    else (1, PyStr.removeChar '+' (before ++ after))

/-- `SymmetryElement._parse_line`: lower-case, strip blanks, extract the
x/y/z coefficients in order, then read the residual as the translation
(empty residual ⇒ 0; otherwise `_float`, whose failure is `none`). -/
def parseLine (symm : String) : Vec3 ℤ × Option ℚ :=
  let s0 := PyStr.removeChar ' ' (PyStr.lower symm)
  let p1 := partitionSign s0 'x'
  let p2 := partitionSign p1.2 'y'
  let p3 := partitionSign p2.2 'z'
  (⟨p1.1, p2.1, p3.1⟩, if p3.2 = "" then some 0 else pyFloatFull p3.2)

/-- Combine the three parsed axis lines: transpose the coefficient rows into
the stored matrix (`np.matrix(lines).transpose()`), collect the translation,
and apply the centric negation. -/
def build (l1 l2 l3 : Vec3 ℤ × Option ℚ) (centric : Bool) : Option SymmetryElement :=
  match l1.2, l2.2, l3.2 with
  | some t1, some t2, some t3 =>
    some (if centric then
            ⟨(⟨⟨l1.1.x, l2.1.x, l3.1.x⟩, ⟨l1.1.y, l2.1.y, l3.1.y⟩,
               ⟨l1.1.z, l2.1.z, l3.1.z⟩⟩ : Mat3).neg,
             Vec3.negQ ⟨t1, t2, t3⟩⟩
          else
            ⟨⟨⟨l1.1.x, l2.1.x, l3.1.x⟩, ⟨l1.1.y, l2.1.y, l3.1.y⟩,
              ⟨l1.1.z, l2.1.z, l3.1.z⟩⟩,
             ⟨t1, t2, t3⟩⟩)
  | _, _, _ => none

/-- `SymmetryElement.__init__`: parse the three axis expressions and `build`
the element.  `none` models a constructor that received an expression whose
residual translation text is unusable (in the source such an element carries
`None` in `trans` and every later numeric use of it raises). Lists of
length ≠ 3 are likewise rejected at construction instead of failing at the
later 3×3 accesses. -/
def ofSymms (symms : List String) (centric : Bool) : Option SymmetryElement :=
  match symms with
  | [s1, s2, s3] => build (parseLine s1) (parseLine s2) (parseLine s3) centric
  | _ => none

/-- One output row of `toShelxl`: the translation (when truthy, i.e.
non-zero) followed by the signed axis tokens for the stored row. -/
def rowText (t : ℚ) (r : Vec3 ℤ) : String :=
  let base : String := if t = 0 then "" else floatStr t
  let seg : ℤ → String → String := fun m ax =>
    if m = 0 then "" else if m < 0 then "-" ++ ax else "+" ++ ax
  base ++ seg r.x "X" ++ seg r.y "Y" ++ seg r.z "Z"

/-- `SymmetryElement.toShelxl`: serialize the rows of the *stored* matrix
(which is the transpose of the parsed coefficient rows) joined by `', '`. -/
def toShelxl (s : SymmetryElement) : String :=
  String.intercalate ", "
    [rowText s.trans.x s.matrix.r0, rowText s.trans.y s.matrix.r1, rowText s.trans.z s.matrix.r2]

/-- `SymmetryElement.applyLattSymm`: build the copy by re-parsing
`self.toShelxl().split(',')`, then overwrite its translation with the raw
component-wise sum `(self.trans + lattSymm.trans) / 1`. -/
def applyLattSymm (s lattSymm : SymmetryElement) : Option SymmetryElement :=
  (ofSymms (PyStr.splitChar ',' s.toShelxl) false).map fun newSymm =>
    { newSymm with
      trans := ⟨(s.trans.x + lattSymm.trans.x) / 1,
                (s.trans.y + lattSymm.trans.y) / 1,
                (s.trans.z + lattSymm.trans.z) / 1⟩ }

end SymmetryElement

/-! ### Atoms and the structure aggregate -/

/-- `ShelxlAtom` (the parsed fields; the redundant raw `data` list is not
duplicated).  `occ` is the encoded occupancy field split as
`(data[5] // 1, data[5] % 1)`. -/
structure ShelxlAtom where
  name : String
  sfac : ℚ
  frac : Vec3 ℚ
  occ : ℚ × ℚ
  adp : List ℚ
  qPeak : Bool
deriving DecidableEq, Repr

/-- Parse/abort conditions raised by the source (`ValueError` from
`float`/`int`, `IndexError` from indexing, `KeyError` from the `LATTDICT`
lookup, and failures inside `SymmetryElement` construction). -/
inductive Err where
  | floatConv (w : String)
  | intConv (w : String)
  | indexError
  | keyError
  | symmErr
deriving DecidableEq, Repr

/-- `float(word)` with `ValueError` as `Except.error`. -/
def pyFloatE (w : String) : Except Err ℚ :=
  match pyFloat w with
  | some q => Except.ok q
  | none => Except.error (Err.floatConv w)

/-- A distance-restraint record as held in `ShelxlMolecule.dfixs`:
`(value, err, pairs)` with `err = None` when the tolerance token was absent. -/
abbrev DfixRecord := ℚ × Option ℚ × List (String × String)

/-- A row of the restraint adjacency table: partner name ↦ (target, tolerance),
in insertion order (a Python `dict`). -/
abbrev DfixRow := List (String × (ℚ × ℚ))

/-- The restraint adjacency table built by `_finalizeDfix`:
atom name ↦ row, in insertion order (a Python `dict` of `dict`s). -/
abbrev DfixTable := List (String × DfixRow)

/-- `ShelxlMolecule`: the mutable aggregate, as a record.  `waveLength` and
`z` are attributes the source only creates inside `setWavelength`/`setZ`,
hence `Option`. -/
structure ShelxlMolecule where
  sfacs : List String := []
  customSfacData : List (String × (String × List ℚ)) := []
  atoms : List ShelxlAtom := []
  qPeaks : List ShelxlAtom := []
  cell : List ℚ := []
  cerr : List ℚ := []
  lattOps : List SymmetryElement := []
  symms : List SymmetryElement := []
  centric : Bool := false
  eqivs : List (String × SymmetryElement) := []
  dfixs : List DfixRecord := []
  dfixErr : ℚ := 0.02
  waveLength : Option ℚ := none
  z : Option ℤ := none
deriving DecidableEq, Repr

/-- Replace the value under the first occurrence of `k`, else append —
Python `dict` assignment with insertion order. -/
def assocSet {α : Type} : List (String × α) → String → α → List (String × α)
  | [], k, v => [(k, v)]
  | (k', v') :: t, k, v =>
    if k' = k then (k', v) :: t else (k', v') :: assocSet t k v

namespace ShelxlMolecule

/-- `addAtom`. -/
def addAtom (m : ShelxlMolecule) (a : ShelxlAtom) : ShelxlMolecule :=
  { m with atoms := m.atoms ++ [a] }

/-- `addQPeak`. -/
def addQPeak (m : ShelxlMolecule) (a : ShelxlAtom) : ShelxlMolecule :=
  { m with qPeaks := m.qPeaks ++ [a] }

/-- `addDfix`. -/
def addDfix (m : ShelxlMolecule) (value : ℚ) (err : Option ℚ)
    (targets : List (String × String)) : ShelxlMolecule :=
  { m with dfixs := m.dfixs ++ [(value, err, targets)] }

/-- `addSymm`: append the parsed element, a lattice-translated copy of it per
registered lattice op, and, when centrosymmetric, the negated element
followed by — as written in the source — lattice-translated copies of
`newSymm` again (not of the negated element). -/
def addSymm (m : ShelxlMolecule) (symmData : List String) : Option ShelxlMolecule :=
  (SymmetryElement.ofSymms symmData false).bind fun newSymm =>
    (m.lattOps.mapM newSymm.applyLattSymm).bind fun copies =>
      if m.centric then
        (SymmetryElement.ofSymms symmData true).bind fun negEl =>
          (m.lattOps.mapM newSymm.applyLattSymm).map fun copies2 =>
            { m with symms := m.symms ++ [newSymm] ++ copies ++ [negEl] ++ copies2 }
      else some { m with symms := m.symms ++ [newSymm] ++ copies }

/-- `addEqiv`: parse and store under the name (dict assignment). -/
def addEqiv (m : ShelxlMolecule) (name : String) (data : List String) :
    Option ShelxlMolecule :=
  (SymmetryElement.ofSymms data false).map fun s =>
    { m with eqivs := assocSet m.eqivs name s }

end ShelxlMolecule

/-- `ShelxlAtom.__init__`: split the line, convert every field but the first
to float (first failure aborts, as in the comprehension), require the
occupancy field `data[5]` to exist (`IndexError` otherwise), split the
occupancy, classify Q-peaks by the upper-cased first letter of the name, and
register the atom with the current molecule. -/
def mkShelxlAtom (line : String) (m : ShelxlMolecule) :
    Except Err (ShelxlAtom × ShelxlMolecule) := do
  match PyStr.wsSplit line with
  | [] => throw Err.indexError
  | name :: rest => do
    let nums ← rest.mapM pyFloatE
    match nums with
    | sfac :: f1 :: f2 :: f3 :: occField :: adp =>
      let occ : ℚ × ℚ := ((Rat.floor occField : ℚ), occField - (Rat.floor occField : ℚ))
      let qPeak : Bool := (name.data.head?.map Char.toUpper) = some 'Q'
      let a : ShelxlAtom := ⟨name, sfac, ⟨f1, f2, f3⟩, occ, adp, qPeak⟩
      if qPeak then pure (a, m.addQPeak a) else pure (a, m.addAtom a)
    | _ => throw Err.indexError

/-! ### The restraint finalize pass (`_finalizeDfix`) -/

/-- First-match lookup in a row. -/
def rowGet : DfixRow → String → Option (ℚ × ℚ)
  | [], _ => none
  | (k, v) :: t, k2 => if k = k2 then some v else rowGet t k2

/-- Write-if-absent in a row (the `try/except KeyError` store). -/
def rowWrite : DfixRow → String → (ℚ × ℚ) → DfixRow
  | [], k2, v => [(k2, v)]
  | (k, w) :: t, k2, v => if k = k2 then (k, w) :: t else (k, w) :: rowWrite t k2 v

/-- First-match lookup of a row in the table. -/
def tblGet : DfixTable → String → Option DfixRow
  | [], _ => none
  | (k, row) :: t, k1 => if k = k1 then some row else tblGet t k1

/-- Fetch-or-create the row for `k1` and write `(k2 ↦ v)` into it if absent:
the source's paired `try/except` blocks for one direction of a pair. -/
def dfixWrite : DfixTable → String → String → (ℚ × ℚ) → DfixTable
  | [], k1, k2, v => [(k1, [(k2, v)])]
  | (k, row) :: t, k1, k2, v =>
    if k = k1 then (k, rowWrite row k2 v) :: t
    else (k, row) :: dfixWrite t k1 k2 v

/-- Table lookup for the unordered-pair claim: row of `k1`, then entry `k2`. -/
def lookup2 (t : DfixTable) (k1 k2 : String) : Option (ℚ × ℚ) :=
  match tblGet t k1 with
  | none => none
  | some row => rowGet row k2

/-- Both directed writes for one restraint pair, in source order: first under
`atom1.upper()` with the *raw* `atom2` as partner key, then under
`atom2.upper()` with `atom1.upper()` as partner key. -/
def pairWrite (v : ℚ × ℚ) (t : DfixTable) (p : String × String) : DfixTable :=
  dfixWrite (dfixWrite t (PyStr.upper p.1) p.2 v) (PyStr.upper p.2) (PyStr.upper p.1) v

/-- Process one `dfixs` record: default the tolerance when it is `None` or
falsy `0.0` (`if not err: err = self.dfixErr`), then write every pair. -/
def recordStep (dfixErr : ℚ) (t : DfixTable) (r : DfixRecord) : DfixTable :=
  let errD : ℚ := match r.2.1 with
    | none => dfixErr
    | some e => if e = 0 then dfixErr else e
  r.2.2.foldl (pairWrite (r.1, errD)) t

/-- The initial table `{atom.name.upper(): {} for atom in self.atoms}`:
one empty row per (distinct) upper-cased atom name, in first-appearance
order (duplicate names collapse onto the same empty row). -/
def initTableAux (acc : DfixTable) : List String → DfixTable
  | [] => acc
  | n :: t =>
    initTableAux (if acc.any (fun r => r.1 = n) then acc else acc ++ [(n, [])]) t

/-- See `initTableAux`; duplicate names keep their first-appearance slot and
a single empty row, exactly as the dict comprehension leaves them. -/
def initTable (ns : List String) : DfixTable := initTableAux [] ns

namespace ShelxlMolecule

/-- `_finalizeDfix`: build the restraint adjacency table (the source prints
it; the table value itself is the observable result). -/
def finalizeDfix (m : ShelxlMolecule) : DfixTable :=
  m.dfixs.foldl (recordStep m.dfixErr) (initTable (m.atoms.map (fun a => PyStr.upper a.name)))

/-- `finalize`: only the dfix pass runs (`_finalizeEqiv` is commented out). -/
def finalize (m : ShelxlMolecule) : DfixTable := m.finalizeDfix

/-- `distance(atom1, atom2)`: minimum-image displacement per axis via the
`+ 99.5`/`% 1`/`− 0.5` trick, then the metric quadratic form with angles in
radians; `dd ** .5` is `Real.sqrt` (for the non-negative `dd` of a valid
cell).  `none` models the unpack failure when `cell` does not hold exactly
six values. -/
noncomputable def distance (m : ShelxlMolecule) (atom1 atom2 : ShelxlAtom) : Option ℝ :=
  match m.cell with
  | [a, b, c, alpha, beta, gamma] =>
    let dx : ℚ := pyMod ((atom2.frac.x + 99.5) - atom1.frac.x) 1 - 0.5
    let dy : ℚ := pyMod ((atom2.frac.y + 99.5) - atom1.frac.y) 1 - 0.5
    let dz : ℚ := pyMod ((atom2.frac.z + 99.5) - atom1.frac.z) 1 - 0.5
    let alphaR : ℝ := (alpha : ℝ) / 180 * Real.pi
    let betaR : ℝ := (beta : ℝ) / 180 * Real.pi
    let gammaR : ℝ := (gamma : ℝ) / 180 * Real.pi
    let dd : ℝ :=
      (a : ℝ) ^ 2 * (dx : ℝ) ^ 2 + (b : ℝ) ^ 2 * (dy : ℝ) ^ 2 + (c : ℝ) ^ 2 * (dz : ℝ) ^ 2
        + 2 * (b : ℝ) * (c : ℝ) * Real.cos alphaR * (dy : ℝ) * (dz : ℝ)
        + 2 * (a : ℝ) * (c : ℝ) * Real.cos betaR * (dx : ℝ) * (dz : ℝ)
        + 2 * (a : ℝ) * (b : ℝ) * Real.cos gammaR * (dx : ℝ) * (dy : ℝ)
    some (Real.sqrt dd)
  | _ => none

end ShelxlMolecule

/-! ### Field sub-parsers (the `finished` commits) -/

/-- `CellParser.finished`: floats of the body after the keyword; `data[1:]`
becomes the cell, `data[0]` the wavelength (empty data ⇒ `IndexError`). -/
def CellParser.finished (body : String) (m : ShelxlMolecule) : Except Err ShelxlMolecule := do
  let data ← ((PyStr.wsSplit body).drop 1).mapM pyFloatE
  match data with
  | [] => throw Err.indexError
  | w :: rest => pure { m with cell := rest, waveLength := some w }

/-- `CerrParser.finished`: `data[1:]` becomes the cell uncertainties,
`int(data[0])` becomes Z. -/
def CerrParser.finished (body : String) (m : ShelxlMolecule) : Except Err ShelxlMolecule := do
  let data ← ((PyStr.wsSplit body).drop 1).mapM pyFloatE
  match data with
  | [] => throw Err.indexError
  | w :: rest => pure { m with cerr := rest, z := some (pyTrunc w) }

/-- `SfacParser.finished`: if any field parses as a float, register one
custom record keyed (and stored) with the first symbol; otherwise register
each word as an element symbol. -/
def SfacParser.finished (body : String) (m : ShelxlMolecule) : Except Err ShelxlMolecule := do
  let words := (PyStr.wsSplit body).drop 1
  let custom := words.any (fun w => (pyFloat w).isSome)
  if custom then
    match words with
    | [] => throw Err.indexError
    | sym :: rest => do
      let ds ← rest.mapM pyFloatE
      pure { m with customSfacData := assocSet m.customSfacData sym (sym, ds),
                    sfacs := m.sfacs ++ [sym] }
  else
    pure { m with sfacs := m.sfacs ++ words }

/-- `LattParser.LATTDICT` entries are built through the `SymmetryElement`
constructor on pure-translation expressions; the default is unreachable
(each literal parses — see `lattEl_half`). -/
def lattEl (a b c : String) : SymmetryElement :=
  (SymmetryElement.ofSymms [a, b, c] false).getD
    ⟨⟨⟨0, 0, 0⟩, ⟨0, 0, 0⟩, ⟨0, 0, 0⟩⟩, ⟨0, 0, 0⟩⟩

/-- `LattParser.LATTDICT`: the fixed centering-translation table, keyed by
`abs(latt)`; `none` models the `KeyError` for magnitudes outside 1–7. -/
def LattParser.LATTDICT : ℕ → Option (List SymmetryElement)
  | 1 => some []
  | 2 => some [lattEl ".5" ".5" ".5"]
  | 3 => some []
  | 4 => some [lattEl ".5" ".5" "0", lattEl ".5" "0" ".5", lattEl "0" ".5" ".5"]
  | 5 => some [lattEl "0" ".5" ".5"]
  | 6 => some [lattEl ".5" "0" ".5"]
  | 7 => some [lattEl ".5" ".5" "0"]
  | _ => none

/-- Core of `LattParser.finished` once the integer code is in hand: positive
codes set the centrosymmetric flag (negative ones leave it untouched), then
the centering set for `abs(latt)` replaces `lattOps`. -/
def lattApply (m : ShelxlMolecule) (latt : ℤ) : Option ShelxlMolecule :=
  let m1 := if latt > 0 then { m with centric := true } else m
  match LattParser.LATTDICT latt.natAbs with
  | some ops => some { m1 with lattOps := ops }
  | none => none

/-- `LattParser.finished`: `int` of the last word, then `lattApply`. -/
def LattParser.finished (body : String) (m : ShelxlMolecule) : Except Err ShelxlMolecule := do
  match (PyStr.wsSplit body).getLast? with
  | none => throw Err.indexError
  | some w =>
    match pyInt w with
    | none => throw (Err.intConv w)
    | some latt =>
      match lattApply m latt with
      | some m' => pure m'
      | none => throw Err.keyError

/-- `SymmParser.finished`: `body[4:]` split on commas, handed to `addSymm`. -/
def SymmParser.finished (body : String) (m : ShelxlMolecule) : Except Err ShelxlMolecule :=
  match m.addSymm (PyStr.splitChar ',' (PyStr.dropN body 4)) with
  | some m' => pure m'
  | none => throw Err.symmErr

/-- `DfixParser.finished`: target value, optional tolerance (non-numeric
second token means absent), then name pairs.  `addDfix` is called inside the
pair loop on the *same* growing list object, so by the time `finalize` reads
`dfixs` every one of the `len(data) // 2` appended records aliases the full
pair list; the model appends those end-state records directly. -/
def DfixParser.finished (body : String) (m : ShelxlMolecule) : Except Err ShelxlMolecule := do
  match PyStr.wsSplit (PyStr.dropN body 4) with
  | [] => throw Err.indexError
  | d0 :: rest => do
    let value ← pyFloatE d0
    match rest with
    | [] => throw Err.indexError  -- `float(data[0])` on the emptied list raises IndexError
    | r0 :: rrest =>
      let (err?, data2) : Option ℚ × List String :=
        match pyFloat r0 with
        | some e => (some e, rrest)
        | none => (none, r0 :: rrest)
      let pairs := pairUp data2
      if pairs.isEmpty then pure m
      else pure { m with dfixs := m.dfixs ++ List.replicate pairs.length (value, err?, pairs) }
where
  /-- Consecutive pairs `data[2*i], data[2*i+1]`, a trailing odd token dropped. -/
  pairUp : List String → List (String × String)
    | a :: b :: t => (a, b) :: pairUp t
    | _ => []

/-- `EqivParser.finished`: name token, then the remaining words re-joined and
split on commas into an axis-expression triple. -/
def EqivParser.finished (body : String) (m : ShelxlMolecule) : Except Err ShelxlMolecule := do
  match (PyStr.wsSplit body).drop 1 with
  | [] => throw Err.indexError
  | name :: rest =>
    match m.addEqiv name (PyStr.splitChar ',' (String.intercalate " " rest)) with
    | some m' => pure m'
    | none => throw Err.symmErr

/-! ### Dispatcher -/

/-- The structured/atom accumulation kinds. -/
inductive SubKind where
  | cell | cerr | sfac | latt | symm | dfix | eqiv | atom
deriving DecidableEq, Repr

/-- What the `COMMANDS` table maps a keyword to: a pass-through (`doNothing`
bound method) or a sub-parser class.  Of the duplicate dict keys the later
binding wins, so `LATT` maps to its sub-parser. -/
inductive CmdAction where
  | ignore
  | sub (k : SubKind)
deriving DecidableEq, Repr

/-- The keyword table entries bound to `doNothing`. -/
def ignoredCommands : List String :=
  ["REM", "BEDE", "MOLE", "TITL", "UNIT", "TEMP", "L.S.", "BOND", "ACTA", "LIST",
   "FMAP", "PLAN", "WGHT", "FVAR", "SIMU", "RIGU", "SADI", "SAME", "DANG", "AFIX",
   "PART", "HKLF", "ABIN", "ANIS", "ANSC", "ANSR", "BASF", "BIND", "BLOC", "BUMP",
   "CGLS", "CHIV", "CONF", "CONN", "DAMP", "DEFS", "DELU", "DISP", "EADP", "EXTI",
   "EXYZ", "FEND", "FLAT", "FRAG", "FREE", "GRID", "HFIX", "HTAB", "ISOR", "LAUE",
   "MERG", "MORE", "MPLA", "NCSY", "NEUT", "OMIT", "PRIG", "RESI", "RTAB", "SHEL",
   "SIZE", "SPEC", "STIR", "SUMP", "SWAT", "TWIN", "TWST", "WIGL", "WPDB", "XNPD",
   "Q", "END", "LONE", "+"]

/-- `LineParser.COMMANDS` as a lookup: `none` models the `KeyError` branch
(unknown keyword → atom record). -/
def commandOf (s : String) : Option CmdAction :=
  if s = "CELL" then some (CmdAction.sub SubKind.cell)
  else if s = "ZERR" then some (CmdAction.sub SubKind.cerr)
  else if s = "SFAC" then some (CmdAction.sub SubKind.sfac)
  else if s = "LATT" then some (CmdAction.sub SubKind.latt)
  else if s = "SYMM" then some (CmdAction.sub SubKind.symm)
  else if s = "DFIX" then some (CmdAction.sub SubKind.dfix)
  else if s = "EQIV" then some (CmdAction.sub SubKind.eqiv)
  else if ignoredCommands.contains s then some CmdAction.ignore
  else none

/-- Dispatcher state: idle (`LineParser`) or accumulating inside an open
sub-parser of the given kind with the body collected so far. -/
inductive ParserState where
  | idle
  | acc (k : SubKind) (body : String)
deriving DecidableEq, Repr

/-- What `read` appends to `self.lines`: a `ShelxlLine`, a `ShelxlAtom`, or —
on the continuation path of a structured sub-parser — the raw string the
sub-parser's `__call__` returned unchanged. -/
inductive Token where
  | line (s : String)
  | atom (a : ShelxlAtom)
  | raw (s : String)
deriving DecidableEq, Repr

/-- Dispatch the `finished` commit of a structured kind. (`atom` has no
`finished` commit: its effect happens in `ShelxlAtom.__init__`.) -/
def finishedOf (k : SubKind) (body : String) (m : ShelxlMolecule) : Except Err ShelxlMolecule :=
  match k with
  | SubKind.cell => CellParser.finished body m
  | SubKind.cerr => CerrParser.finished body m
  | SubKind.sfac => SfacParser.finished body m
  | SubKind.latt => LattParser.finished body m
  | SubKind.symm => SymmParser.finished body m
  | SubKind.dfix => DfixParser.finished body m
  | SubKind.eqiv => EqivParser.finished body m
  | SubKind.atom => pure m

/-- One step of the dispatcher: `LineParser.__call__` when idle, the open
sub-parser's `__call__` when accumulating.  Note the two behaviours the
source gives continuation lines: an open atom record appends the raw line to
its body before constructing the atom, while every structured sub-parser
(`BaseParser.__call__`) runs `finished()` on the body *without* the new line
and hands the raw line back unconsumed. -/
def lineStep (st : ParserState) (m : ShelxlMolecule) (raw : String) :
    Except Err (ParserState × ShelxlMolecule × Option Token) :=
  match st with
  | ParserState.acc SubKind.atom body => do
    let (a, m') ← mkShelxlAtom (body ++ raw) m
    pure (ParserState.idle, m', some (Token.atom a))
  | ParserState.acc k body => do
    let m' ← finishedOf k body m
    pure (ParserState.idle, m', some (Token.raw raw))
  | ParserState.idle =>
    let line := PyStr.rstripNl raw
    if line = "" then pure (ParserState.idle, m, some (Token.line line))
    else if PyStr.firstChar line = some ' ' then
      pure (ParserState.idle, m, some (Token.line line))
    else
      match commandOf (PyStr.rstripWs (PyStr.takeN line 4)) with
      | some CmdAction.ignore => pure (ParserState.idle, m, some (Token.line line))
      | some (CmdAction.sub k) =>
        if PyStr.endsEq line '=' then
          pure (ParserState.acc k (PyStr.dropLast1 line), m, none)
        else
          match finishedOf k line m with
          | Except.ok m' => pure (ParserState.idle, m', some (Token.line line))
          | Except.error Err.keyError =>
            -- the whole `parser.get(self)` call sits inside the `try`, so a
            -- KeyError escaping `LattParser.finished` is caught by the
            -- `except KeyError` and the line is retried as an atom record
            -- (the `setCentric` mutation a positive out-of-range code performs
            -- before its KeyError is not replayed here; no claim reaches it)
            if PyStr.endsEq line '=' then
              pure (ParserState.acc SubKind.atom (PyStr.dropLast1 line), m, none)
            else do
              let (a, m') ← mkShelxlAtom line m
              pure (ParserState.idle, m', some (Token.atom a))
          | Except.error e => throw e
      | none =>
        if PyStr.endsEq line '=' then
          pure (ParserState.acc SubKind.atom (PyStr.dropLast1 line), m, none)
        else do
          let (a, m') ← mkShelxlAtom line m
          pure (ParserState.idle, m', some (Token.atom a))

/-- `if line: self.lines.append(line)`: `ShelxlLine`/`ShelxlAtom` objects are
always truthy; the raw string handed back on the structured-continuation
path is truthy only when non-empty. -/
def appendToken (toks : List Token) : Option Token → List Token
  | none => toks
  | some (Token.raw s) => if s = "" then toks else toks ++ [Token.raw s]
  | some t => toks ++ [t]

/-- One iteration of the `read` loop: rewrite a `+`-insertion directive with
the fixed marker prefix (the Line Source's actual file splicing is the
out-of-scope collaborator; the input list stands for the line sequence the
reader yields), then run the dispatcher and collect the emitted token. -/
def readStep (acc : ParserState × ShelxlMolecule × List Token) (raw : String) :
    Except Err (ParserState × ShelxlMolecule × List Token) := do
  let line := if PyStr.firstChar raw = some '+' then "+    " ++ PyStr.dropN raw 1 else raw
  let (st', m', t?) ← lineStep acc.1 acc.2.1 line
  pure (st', m', appendToken acc.2.2 t?)

/-- What a call to `ShelxlParser.read` leaves behind. -/
structure ReadResult where
  /-- The value of the call itself: the source's `read` has no `return`
  statement, so the caller receives `None`. -/
  returned : Option ShelxlMolecule
  /-- The molecule that was built and passed through `finalize`. -/
  molecule : ShelxlMolecule
  /-- `ShelxlParser.CURRENTMOLECULE` after the call (cleared to `None`). -/
  current : Option ShelxlMolecule
  /-- `self.lines`. -/
  tokens : List Token
  /-- The restraint table computed (and printed) by the finalize pass. -/
  table : DfixTable
deriving DecidableEq, Repr

/-- `ShelxlParser.read`: create a fresh molecule, feed every line through
the dispatcher (a body still accumulating at end of stream is dropped, as
in the source), run `finalize`, clear the class-level current-molecule slot,
and fall off the end — returning `None`. -/
def ShelxlParser.read (lines : List String) : Except Err ReadResult := do
  let (_, m, toks) ← lines.foldlM readStep (ParserState.idle, {}, [])
  let tbl := m.finalize
  pure { returned := none, molecule := m, current := none, tokens := toks, table := tbl }

/-- `Except.toOption`, for stating evaluation facts about `read`. -/
def readOk (lines : List String) : Option ReadResult :=
  (ShelxlParser.read lines).toOption

/-- The abort condition of a `read` call, if it aborted. -/
def readErr (lines : List String) : Option Err :=
  match ShelxlParser.read lines with
  | Except.error e => some e
  | Except.ok _ => none

/-! ### First-write-wins characterization of the restraint table

`firstRegistered` renders the claim's notion of "the first-registered
(target, tolerance) value" for an unordered pair: scan the `dfixs` records
and, within each, the pairs, in order; a pair hits the table slot
`(a1, a2)` either through its forward write (keyed by the upper-cased first
name and the raw second name) or through its reverse write (keyed by the two
upper-cased names swapped). -/

/-- Left-biased choice on `Option`. -/
def oElse {α : Type} : Option α → Option α → Option α
  | some a, _ => some a
  | none, b => b

/-- The value slot `(a1, a2)` receives from one restraint pair, if any. -/
def pairHit (v : ℚ × ℚ) (a1 a2 : String) (p : String × String) : Option (ℚ × ℚ) :=
  if (PyStr.upper p.1 = a1 ∧ p.2 = a2) ∨ (PyStr.upper p.2 = a1 ∧ PyStr.upper p.1 = a2) then
    some v
  else none

/-- First hit among a record's pairs. -/
def firstHit (v : ℚ × ℚ) (a1 a2 : String) : List (String × String) → Option (ℚ × ℚ)
  | [] => none
  | p :: t => oElse (pairHit v a1 a2 p) (firstHit v a1 a2 t)

/-- First hit within one record, with the tolerance defaulted exactly as the
finalize pass defaults it. -/
def recordHit (dfixErr : ℚ) (a1 a2 : String) (r : DfixRecord) : Option (ℚ × ℚ) :=
  let errD : ℚ := match r.2.1 with
    | none => dfixErr
    | some e => if e = 0 then dfixErr else e
  firstHit (r.1, errD) a1 a2 r.2.2

/-- The first-registered value for slot `(a1, a2)` across all records. -/
def firstRegistered (dfixErr : ℚ) (a1 a2 : String) : List DfixRecord → Option (ℚ × ℚ)
  | [] => none
  | r :: t => oElse (recordHit dfixErr a1 a2 r) (firstRegistered dfixErr a1 a2 t)

/-! ### Remaining definitions used by the claim statements -/

/-- A grid entry is −1, 0, or +1. -/
def entryOK (e : ℤ) : Prop := e = -1 ∨ e = 0 ∨ e = 1

instance (e : ℤ) : Decidable (entryOK e) := by unfold entryOK; infer_instance

/-- All nine grid entries are −1, 0, or +1. -/
def gridOK (M : Mat3) : Prop :=
  entryOK M.r0.x ∧ entryOK M.r0.y ∧ entryOK M.r0.z ∧
  entryOK M.r1.x ∧ entryOK M.r1.y ∧ entryOK M.r1.z ∧
  entryOK M.r2.x ∧ entryOK M.r2.y ∧ entryOK M.r2.z

instance (M : Mat3) : Decidable (gridOK M) := by unfold gridOK; infer_instance

/-- The claim's expected centering-set sizes for `|N| = 1..7`:
`{0, 1, 0, 3, 1, 1, 1}`. -/
def expectedLattCount : ℕ → ℕ
  | 1 => 0
  | 2 => 1
  | 3 => 0
  | 4 => 3
  | 5 => 1
  | 6 => 1
  | 7 => 1
  | _ => 0

/-- The element parsed from `1/2-X,+Y,1/2+Z`. -/
def symC6 : SymmetryElement := ⟨⟨⟨-1, 0, 0⟩, ⟨0, 1, 0⟩, ⟨0, 0, 1⟩⟩, ⟨1/2, 0, 1/2⟩⟩

/-- The lattice-translated copy of `symC6` under the `LATT 2` centering op. -/
def symC6latt : SymmetryElement := ⟨⟨⟨-1, 0, 0⟩, ⟨0, 1, 0⟩, ⟨0, 0, 1⟩⟩, ⟨1, 1/2, 1⟩⟩

/-- The identity operation, as parsed from `X,Y,Z`. -/
def idSymm : SymmetryElement := ⟨⟨⟨1, 0, 0⟩, ⟨0, 1, 0⟩, ⟨0, 0, 1⟩⟩, ⟨0, 0, 0⟩⟩

/-- A centrosymmetric molecule with the `LATT 2` body-centering translation
registered. -/
def mC4 : ShelxlMolecule := { centric := true, lattOps := [lattEl ".5" ".5" ".5"] }

/-- The cubic cell a = b = c = 10, α = β = γ = 90°. -/
def mCubic : ShelxlMolecule := { cell := [10, 10, 10, 90, 90, 90] }

/-- Atom at fractional (0, 0, 0). -/
def atomA : ShelxlAtom := ⟨"A", 1, ⟨0, 0, 0⟩, (0, 0), [], false⟩

/-- Atom at fractional (0.5, 0, 0). -/
def atomB : ShelxlAtom := ⟨"B", 1, ⟨1/2, 0, 0⟩, (0, 0), [], false⟩

theorem oElse_some {α : Type} (a : α) (b : Option α) : oElse (some a) b = some a := rfl

theorem oElse_none {α : Type} (b : Option α) : oElse none b = b := rfl

theorem oElse_none_right {α : Type} (a : Option α) : oElse a none = a := by
  cases a <;> rfl

theorem oElse_assoc {α : Type} (a b c : Option α) :
    oElse (oElse a b) c = oElse a (oElse b c) := by
  cases a <;> rfl

theorem oElse_ite_ite {α : Type} (A B : Prop) [Decidable A] [Decidable B] (v : α) :
    oElse (if A then some v else none) (if B then some v else none) =
      if A ∨ B then some v else none := by
  by_cases hA : A <;> by_cases hB : B <;> simp [hA, hB, oElse_some, oElse_none]

theorem rowGet_rowWrite (row : DfixRow) (k2 a2 : String) (v : ℚ × ℚ) :
    rowGet (rowWrite row k2 v) a2 =
      oElse (rowGet row a2) (if k2 = a2 then some v else none) := by
  induction row with
  | nil => simp [rowGet, rowWrite, oElse_none]
  | cons h t ih =>
    obtain ⟨k, w⟩ := h
    by_cases hk : k = k2
    · subst hk
      by_cases ha : k = a2 <;>
        simp [rowGet, rowWrite, ha, oElse_some, oElse_none_right]
    · by_cases ha : k = a2
      · subst ha
        simp [rowGet, rowWrite, hk, oElse_some]
      · simp [rowGet, rowWrite, hk, ha, ih]

theorem tblGet_dfixWrite (t : DfixTable) (k1 k2 a1 : String) (v : ℚ × ℚ) :
    tblGet (dfixWrite t k1 k2 v) a1 =
      if k1 = a1 then some (rowWrite ((tblGet t k1).getD []) k2 v) else tblGet t a1 := by
  induction t with
  | nil => by_cases h : k1 = a1 <;> simp [dfixWrite, tblGet, h, rowWrite]
  | cons hd t ih =>
    obtain ⟨k, row⟩ := hd
    by_cases hk : k = k1
    · subst hk
      by_cases ha : k = a1
      · subst ha
        simp [dfixWrite, tblGet]
      · simp [dfixWrite, tblGet, ha]
    · by_cases ha : k = a1
      · subst ha
        have hk1 : k1 ≠ k := fun h => hk h.symm
        simp [dfixWrite, tblGet, hk, hk1]
      · simp [dfixWrite, tblGet, hk, ha, ih]

theorem lookup2_dfixWrite (t : DfixTable) (k1 k2 a1 a2 : String) (v : ℚ × ℚ) :
    lookup2 (dfixWrite t k1 k2 v) a1 a2 =
      oElse (lookup2 t a1 a2) (if k1 = a1 ∧ k2 = a2 then some v else none) := by
  unfold lookup2
  rw [tblGet_dfixWrite]
  by_cases h1 : k1 = a1
  · subst h1
    cases h : tblGet t k1 with
    | none => simp [h, rowGet_rowWrite, rowGet, oElse]
    | some row => simp [h, rowGet_rowWrite, oElse]
  · have : ¬(k1 = a1 ∧ k2 = a2) := fun hc => h1 hc.1
    simp only [if_neg h1, if_neg this, oElse_none_right]

theorem lookup2_pairWrite (t : DfixTable) (v : ℚ × ℚ) (p : String × String) (a1 a2 : String) :
    lookup2 (pairWrite v t p) a1 a2 =
      oElse (lookup2 t a1 a2) (pairHit v a1 a2 p) := by
  unfold pairWrite pairHit
  rw [lookup2_dfixWrite, lookup2_dfixWrite, oElse_assoc]
  congr 1
  exact oElse_ite_ite _ _ _

theorem lookup2_foldl_pairWrite (ps : List (String × String)) (v : ℚ × ℚ)
    (t : DfixTable) (a1 a2 : String) :
    lookup2 (ps.foldl (pairWrite v) t) a1 a2 =
      oElse (lookup2 t a1 a2) (firstHit v a1 a2 ps) := by
  induction ps generalizing t with
  | nil => simp [firstHit, oElse_none_right]
  | cons p ps ih =>
    simp only [List.foldl_cons, firstHit]
    rw [ih, lookup2_pairWrite, oElse_assoc]

theorem lookup2_foldl_recordStep (ds : List DfixRecord) (e : ℚ)
    (t : DfixTable) (a1 a2 : String) :
    lookup2 (ds.foldl (recordStep e) t) a1 a2 =
      oElse (lookup2 t a1 a2) (firstRegistered e a1 a2 ds) := by
  induction ds generalizing t with
  | nil => simp [firstRegistered, oElse_none_right]
  | cons r ds ih =>
    simp only [List.foldl_cons, firstRegistered]
    rw [ih]
    show oElse (lookup2 (recordStep e t r) a1 a2) _ = _
    unfold recordStep recordHit
    rw [lookup2_foldl_pairWrite, oElse_assoc]

theorem lookup2_of_empty_rows (t : DfixTable) (a1 a2 : String)
    (h : ∀ p ∈ t, p.2 = ([] : DfixRow)) : lookup2 t a1 a2 = none := by
  induction t with
  | nil => rfl
  | cons hd tl ih =>
    obtain ⟨k, row⟩ := hd
    have hrow : row = [] := h (k, row) (List.mem_cons_self _ _)
    by_cases hk : k = a1
    · simp [lookup2, tblGet, hk, hrow, rowGet]
    · have := ih (fun p hp => h p (List.mem_cons_of_mem _ hp))
      simpa [lookup2, tblGet, hk] using this

theorem initTableAux_empty_rows (ns : List String) :
    ∀ (acc : DfixTable), (∀ p ∈ acc, p.2 = ([] : DfixRow)) →
      ∀ p ∈ initTableAux acc ns, p.2 = ([] : DfixRow) := by
  induction ns with
  | nil => intro acc hacc p hp; exact hacc p hp
  | cons n t ih =>
    intro acc hacc p hp
    refine ih _ ?_ p hp
    intro q hq
    by_cases h : acc.any (fun r => r.1 = n)
    · simp only [initTableAux, h, if_pos] at hq ⊢
      exact hacc q hq
    · simp only [initTableAux, h, if_neg, not_false_iff] at hq ⊢
      rcases List.mem_append.mp hq with h1 | h1
      · exact hacc q h1
      · simp only [List.mem_singleton] at h1
        subst h1
        rfl

theorem lookup2_initTable (ns : List String) (a1 a2 : String) :
    lookup2 (initTable ns) a1 a2 = none :=
  lookup2_of_empty_rows _ _ _
    (initTableAux_empty_rows ns [] (by intro p hp; cases hp))

/-! ### The tri-valued grid invariant -/

theorem entryOK_neg {e : ℤ} (h : entryOK e) : entryOK (-e) := by
  rcases h with h | h | h <;> subst h <;> simp [entryOK]

theorem entryOK_partitionSign (s : String) (c : Char) :
    entryOK (SymmetryElement.partitionSign s c).1 := by
  unfold SymmetryElement.partitionSign
  cases h : PyStr.partitionChar c s with
  | none => simp [entryOK]
  | some p =>
    obtain ⟨b, a⟩ := p
    by_cases hs : b.data.getLast? = some '-' <;> simp [hs, entryOK]

theorem entryOK_parseLine_x (s : String) :
    entryOK (SymmetryElement.parseLine s).1.x := by
  simp only [SymmetryElement.parseLine]
  exact entryOK_partitionSign _ _

theorem entryOK_parseLine_y (s : String) :
    entryOK (SymmetryElement.parseLine s).1.y := by
  simp only [SymmetryElement.parseLine]
  exact entryOK_partitionSign _ _

theorem entryOK_parseLine_z (s : String) :
    entryOK (SymmetryElement.parseLine s).1.z := by
  simp only [SymmetryElement.parseLine]
  exact entryOK_partitionSign _ _

theorem gridOK_build {l1 l2 l3 : Vec3 ℤ × Option ℚ} {ctr : Bool} {s : SymmetryElement}
    (h : SymmetryElement.build l1 l2 l3 ctr = some s)
    (e1 : entryOK l1.1.x ∧ entryOK l1.1.y ∧ entryOK l1.1.z)
    (e2 : entryOK l2.1.x ∧ entryOK l2.1.y ∧ entryOK l2.1.z)
    (e3 : entryOK l3.1.x ∧ entryOK l3.1.y ∧ entryOK l3.1.z) : gridOK s.matrix := by
  unfold SymmetryElement.build at h
  cases ht1 : l1.2 with
  | none => rw [ht1] at h; exact absurd h (by simp)
  | some t1 =>
    cases ht2 : l2.2 with
    | none => rw [ht1, ht2] at h; exact absurd h (by simp)
    | some t2 =>
      cases ht3 : l3.2 with
      | none => rw [ht1, ht2, ht3] at h; exact absurd h (by simp)
      | some t3 =>
        rw [ht1, ht2, ht3] at h
        simp only [Option.some.injEq] at h
        subst h
        cases ctr with
        | false =>
          simp only [Bool.false_eq_true, if_false, gridOK]
          exact ⟨e1.1, e2.1, e3.1, e1.2.1, e2.2.1, e3.2.1, e1.2.2, e2.2.2, e3.2.2⟩
        | true =>
          simp only [if_true, Mat3.neg, gridOK]
          exact ⟨entryOK_neg e1.1, entryOK_neg e2.1, entryOK_neg e3.1,
                 entryOK_neg e1.2.1, entryOK_neg e2.2.1, entryOK_neg e3.2.1,
                 entryOK_neg e1.2.2, entryOK_neg e2.2.2, entryOK_neg e3.2.2⟩

theorem entryOK_parseLine (s : String) :
    entryOK (SymmetryElement.parseLine s).1.x ∧ entryOK (SymmetryElement.parseLine s).1.y ∧
      entryOK (SymmetryElement.parseLine s).1.z :=
  ⟨entryOK_parseLine_x s, entryOK_parseLine_y s, entryOK_parseLine_z s⟩

theorem gridOK_ofSymms {symms : List String} {ctr : Bool} {s : SymmetryElement}
    (h : SymmetryElement.ofSymms symms ctr = some s) : gridOK s.matrix := by
  rcases symms with _ | ⟨s1, _ | ⟨s2, _ | ⟨s3, _ | ⟨s4, t⟩⟩⟩⟩ <;>
    simp only [SymmetryElement.ofSymms] at h
  · exact absurd h (by simp)
  · exact absurd h (by simp)
  · exact absurd h (by simp)
  · exact gridOK_build h (entryOK_parseLine s1) (entryOK_parseLine s2) (entryOK_parseLine s3)
  · exact absurd h (by simp)

theorem gridOK_applyLattSymm {s latt s' : SymmetryElement}
    (h : s.applyLattSymm latt = some s') : gridOK s'.matrix := by
  unfold SymmetryElement.applyLattSymm at h
  rcases Option.map_eq_some'.mp h with ⟨n, hn, hs'⟩
  have : s'.matrix = n.matrix := by rw [← hs']
  rw [this]
  exact gridOK_ofSymms hn

theorem addSymm_preserves_symms {m : ShelxlMolecule} {d : List String} {m' : ShelxlMolecule}
    (h : m.addSymm d = some m') : m'.symms.take m.symms.length = m.symms := by
  unfold ShelxlMolecule.addSymm at h
  rcases Option.bind_eq_some.mp h with ⟨newSymm, h0, h⟩
  rcases Option.bind_eq_some.mp h with ⟨copies, h1, h⟩
  by_cases hc : m.centric
  · rw [if_pos hc] at h
    rcases Option.bind_eq_some.mp h with ⟨negEl, h2, h⟩
    rcases Option.map_eq_some'.mp h with ⟨copies2, h3, h⟩
    rw [← h]
    show ((m.symms ++ [newSymm] ++ copies ++ [negEl] ++ copies2).take m.symms.length) = _
    simp only [List.append_assoc]
    exact List.take_left _ _
  · rw [if_neg hc] at h
    simp only [Option.some.injEq] at h
    rw [← h]
    show ((m.symms ++ [newSymm] ++ copies).take m.symms.length) = _
    simp only [List.append_assoc]
    exact List.take_left _ _

/-! ### The distance formula -/

theorem distance_formula (m : ShelxlMolecule) (atom1 atom2 : ShelxlAtom)
    (a b c alpha beta gamma : ℚ) (hcell : m.cell = [a, b, c, alpha, beta, gamma]) :
    m.distance atom1 atom2 = some (Real.sqrt
      ((a : ℝ) ^ 2 * ((pyMod ((atom2.frac.x + 99.5) - atom1.frac.x) 1 - 0.5 : ℚ) : ℝ) ^ 2
        + (b : ℝ) ^ 2 * ((pyMod ((atom2.frac.y + 99.5) - atom1.frac.y) 1 - 0.5 : ℚ) : ℝ) ^ 2
        + (c : ℝ) ^ 2 * ((pyMod ((atom2.frac.z + 99.5) - atom1.frac.z) 1 - 0.5 : ℚ) : ℝ) ^ 2
        + 2 * (b : ℝ) * (c : ℝ) * Real.cos ((alpha : ℝ) / 180 * Real.pi)
            * ((pyMod ((atom2.frac.y + 99.5) - atom1.frac.y) 1 - 0.5 : ℚ) : ℝ)
            * ((pyMod ((atom2.frac.z + 99.5) - atom1.frac.z) 1 - 0.5 : ℚ) : ℝ)
        + 2 * (a : ℝ) * (c : ℝ) * Real.cos ((beta : ℝ) / 180 * Real.pi)
            * ((pyMod ((atom2.frac.x + 99.5) - atom1.frac.x) 1 - 0.5 : ℚ) : ℝ)
            * ((pyMod ((atom2.frac.z + 99.5) - atom1.frac.z) 1 - 0.5 : ℚ) : ℝ)
        + 2 * (a : ℝ) * (b : ℝ) * Real.cos ((gamma : ℝ) / 180 * Real.pi)
            * ((pyMod ((atom2.frac.x + 99.5) - atom1.frac.x) 1 - 0.5 : ℚ) : ℝ)
            * ((pyMod ((atom2.frac.y + 99.5) - atom1.frac.y) 1 - 0.5 : ℚ) : ℝ))) := by
  unfold ShelxlMolecule.distance
  rw [hcell]

/-! ### Claim theorems -/

set_option maxRecDepth 100000 in
unseal Rat.add Rat.mul Rat.sub Rat.inv Rat.ofScientific in
/-- Claim C1 (code bug exhibited): on a well-formed single-instruction
stream, `read` builds and finalizes a populated molecule (cell and
wavelength committed), yet the value of the call is `None` and the
class-level current-molecule slot is cleared — the populated Structure is
*not* handed to the caller as the returned artifact. -/
theorem c1_read_returns_none :
    (readOk ["CELL 0.71 10 10 10 90 90 90\n"]).map
        (fun r => (r.returned, r.current, r.molecule.cell, r.molecule.waveLength))
      = some (none, none, [10, 10, 10, 90, 90, 90], some (71/100)) := by
  decide

set_option maxRecDepth 100000 in
unseal Rat.add Rat.mul Rat.sub Rat.inv Rat.ofScientific in
/-- Claim C2 counterexample: the line `XYZZ foo bar`, whose keyword matches
no instruction-table entry, does not produce a benign inert token — the
dispatcher hands it to the atom-record constructor, `float('foo')` raises,
and the whole parse aborts, so the following well-formed `CELL` line is
never parsed. -/
theorem c2_unknown_keyword_aborts :
    readErr ["XYZZ foo bar\n", "CELL 0.9 10 10 10 90 90 90\n"]
      = some (Err.floatConv "foo") := by
  decide

set_option maxRecDepth 100000 in
unseal Rat.add Rat.mul Rat.sub Rat.inv Rat.ofScientific in
/-- Claim C2 (amended): every line whose first-4-character keyword matches
no instruction-table entry (and that is non-empty, not whitespace-led, and
not a continuation) is routed to the atom-record constructor rather than
emitted as an inert token; such a line with valid atom fields is consumed
as an atom record and subsequent well-formed lines are still parsed. -/
theorem c2_unknown_keyword_is_atom :
    (∀ (raw : String) (m : ShelxlMolecule),
        PyStr.rstripNl raw ≠ "" →
        PyStr.firstChar (PyStr.rstripNl raw) ≠ some ' ' →
        commandOf (PyStr.rstripWs (PyStr.takeN (PyStr.rstripNl raw) 4)) = none →
        PyStr.endsEq (PyStr.rstripNl raw) '=' = false →
        lineStep ParserState.idle m raw =
          (mkShelxlAtom (PyStr.rstripNl raw) m).map
            (fun am => (ParserState.idle, am.2, some (Token.atom am.1))))
    ∧ (readOk ["XYZZ 1 1 2 3 11 0.05\n", "CELL 0.9 10 10 10 90 90 90\n"]).map
        (fun r => (r.molecule.atoms.map (fun a => a.name), r.molecule.cell))
      = some (["XYZZ"], [10, 10, 10, 90, 90, 90]) := by
  constructor
  · intro raw m h1 h2 h3 h4
    unfold lineStep
    rw [if_neg h1, if_neg h2, h3, h4]
    cases hr : mkShelxlAtom (PyStr.rstripNl raw) m with
    | error e => simp [hr, Except.map]
    | ok am => simp [hr, Except.map]
  · decide

set_option maxRecDepth 100000 in
unseal Rat.add Rat.mul Rat.sub Rat.inv Rat.ofScientific in
/-- Witness for the amended C2: the routing equation instantiated at the
concrete unknown-keyword line `XYZZ 1 1 2 3 11 0.05`. -/
theorem c2_unknown_keyword_is_atom_witness :
    lineStep ParserState.idle {} "XYZZ 1 1 2 3 11 0.05\n" =
      (mkShelxlAtom (PyStr.rstripNl "XYZZ 1 1 2 3 11 0.05\n") {}).map
        (fun am => (ParserState.idle, am.2, some (Token.atom am.1))) :=
  c2_unknown_keyword_is_atom.1 "XYZZ 1 1 2 3 11 0.05\n" {}
    (by decide) (by decide) (by decide) (by decide)

set_option maxRecDepth 100000 in
unseal Rat.add Rat.mul Rat.sub Rat.inv Rat.ofScientific in
/-- Claim C3 (code bug exhibited): on `CELL 1.54 10 10 10=` followed by
` 90 90 90`, the trailing `=` is stripped and the parser stays accumulating,
but the structured sub-parser finalizes the *unextended* body — the cell
receives only the 3 values `10, 10, 10` (not 6) with wavelength 1.54, and
the continuation line is handed back unconsumed as a stray raw token
instead of being appended before the finalizer runs. -/
theorem c3_continuation_line_not_joined :
    (readOk ["CELL 1.54 10 10 10=\n", " 90 90 90\n"]).map
        (fun r => (r.molecule.cell, r.molecule.waveLength, r.tokens))
      = some ([10, 10, 10], some (77/50), [Token.raw " 90 90 90\n"]) := by
  decide

set_option maxRecDepth 100000 in
unseal Rat.add Rat.mul Rat.sub Rat.inv Rat.ofScientific in
/-- Claim C4 (code bug exhibited): with the centrosymmetric flag set and one
registered lattice translation (1/2, 1/2, 1/2), `addSymm "X,Y,Z"` appends
the element, its lattice copy, the negated element — and then a lattice
copy of the *unnegated* element again (matrix +1-diagonal), where the claim
requires the lattice copy of the negated element (matrix −1-diagonal).
With zero lattice translations the claimed count of exactly 2 does hold. -/
theorem c4_centric_lattice_copy_unnegated :
    ((mC4.addSymm ["X", "Y", "Z"]).map fun m' => m'.symms.map fun s => (s.matrix, s.trans))
      = some [(⟨⟨1, 0, 0⟩, ⟨0, 1, 0⟩, ⟨0, 0, 1⟩⟩, ⟨0, 0, 0⟩),
              (⟨⟨1, 0, 0⟩, ⟨0, 1, 0⟩, ⟨0, 0, 1⟩⟩, ⟨1/2, 1/2, 1/2⟩),
              (⟨⟨-1, 0, 0⟩, ⟨0, -1, 0⟩, ⟨0, 0, -1⟩⟩, ⟨0, 0, 0⟩),
              (⟨⟨1, 0, 0⟩, ⟨0, 1, 0⟩, ⟨0, 0, 1⟩⟩, ⟨1/2, 1/2, 1/2⟩)]
    ∧ ((({ centric := true } : ShelxlMolecule).addSymm ["X", "Y", "Z"]).map
          fun m' => m'.symms.length) = some 2 := by
  decide

set_option maxRecDepth 100000 in
unseal Rat.add Rat.mul Rat.sub Rat.inv Rat.ofScientific in
/-- Claim C5 (code bug exhibited): for the operation parsed from `-Y,X,Z`
and the lattice translation (1/2, 1/2, 1/2), the lattice-translated copy
does get the raw component-wise translation sum, but its matrix is the
*transpose* of the original's (the serialize/reparse round trip inside
`applyLattSymm` transposes every non-symmetric matrix), so the original
matrix is not preserved. -/
theorem c5_lattice_copy_transposes_matrix :
    ((SymmetryElement.ofSymms ["-Y", "X", "Z"] false).bind fun s =>
        (s.applyLattSymm (lattEl ".5" ".5" ".5")).map fun s' => (s.matrix, s'.matrix, s'.trans))
      = some (⟨⟨0, 1, 0⟩, ⟨-1, 0, 0⟩, ⟨0, 0, 1⟩⟩,
              ⟨⟨0, -1, 0⟩, ⟨1, 0, 0⟩, ⟨0, 0, 1⟩⟩,
              ⟨1/2, 1/2, 1/2⟩)
    ∧ (⟨⟨0, -1, 0⟩, ⟨1, 0, 0⟩, ⟨0, 0, 1⟩⟩ : Mat3) ≠ ⟨⟨0, 1, 0⟩, ⟨-1, 0, 0⟩, ⟨0, 0, 1⟩⟩ := by
  decide

set_option maxRecDepth 100000 in
unseal Rat.add Rat.mul Rat.sub Rat.inv Rat.ofScientific in
/-- Claim C6: parsing `1/2-X,+Y,1/2+Z` yields the matrix diag(−1, 1, 1) and
the translation (1/2, 0, 1/2); serializing that element and reparsing the
serialized text reproduces the identical matrix and translation. -/
theorem c6_roundtrip :
    SymmetryElement.ofSymms ["1/2-X", "+Y", "1/2+Z"] false =
        some ⟨⟨⟨-1, 0, 0⟩, ⟨0, 1, 0⟩, ⟨0, 0, 1⟩⟩, ⟨1/2, 0, 1/2⟩⟩
    ∧ SymmetryElement.ofSymms
        (PyStr.splitChar ','
          (SymmetryElement.toShelxl ⟨⟨⟨-1, 0, 0⟩, ⟨0, 1, 0⟩, ⟨0, 0, 1⟩⟩, ⟨1/2, 0, 1/2⟩⟩)) false =
        some ⟨⟨⟨-1, 0, 0⟩, ⟨0, 1, 0⟩, ⟨0, 0, 1⟩⟩, ⟨1/2, 0, 1/2⟩⟩ := by
  decide

/-- Claim C7: for every lattice code N with |N| ∈ {1..7}, applied to a
molecule whose centrosymmetric flag is still clear, the lookup succeeds,
the registered centering set is the fixed table entry for |N| with sizes
0, 1, 0, 3, 1, 1, 1 respectively, and the flag is selected by the sign of N
(positive ⇒ centrosymmetric). -/
theorem c7_latt_table (m : ShelxlMolecule) (N : ℤ) (hc : m.centric = false)
    (h1 : 1 ≤ N.natAbs) (h7 : N.natAbs ≤ 7) :
    ∃ m', lattApply m N = some m' ∧
      m'.lattOps.length = expectedLattCount N.natAbs ∧
      (m'.centric = true ↔ 0 < N) := by
  have hlo : -7 ≤ N := by omega
  have hhi : N ≤ 7 := by omega
  interval_cases N
  all_goals first
    | omega
    | exact ⟨_, rfl, rfl, by simp [lattApply, hc]⟩

/-- Witness for C7 at the codes N = 4 (centrosymmetric, 3 centering ops)
and N = −2 (non-centrosymmetric, 1 centering op). -/
theorem c7_latt_table_witness :
    (∃ m', lattApply {} 4 = some m' ∧
        m'.lattOps.length = expectedLattCount (4 : ℤ).natAbs ∧
        (m'.centric = true ↔ 0 < (4 : ℤ)))
    ∧ (∃ m', lattApply {} (-2) = some m' ∧
        m'.lattOps.length = expectedLattCount (-2 : ℤ).natAbs ∧
        (m'.centric = true ↔ 0 < (-2 : ℤ))) :=
  ⟨c7_latt_table {} 4 rfl (by decide) (by decide),
   c7_latt_table {} (-2) rfl (by decide) (by decide)⟩

/-- Claim C8: in the finalized restraint adjacency table, the lookup of any
slot `(a1, a2)` returns exactly the first-registered (target, tolerance)
value for that unordered pair — each pair is written under both atom names
(forward under the upper-cased first name, reverse under the swapped
upper-cased names), an existing entry is never overwritten, and later
values are silently discarded. -/
theorem c8_restraint_first_write_wins (m : ShelxlMolecule) (a1 a2 : String) :
    lookup2 m.finalize a1 a2 = firstRegistered m.dfixErr a1 a2 m.dfixs := by
  unfold ShelxlMolecule.finalize ShelxlMolecule.finalizeDfix
  rw [lookup2_foldl_recordStep, lookup2_initTable]
  rfl

set_option maxRecDepth 100000 in
unseal Rat.add Rat.mul Rat.sub Rat.inv Rat.ofScientific in
/-- Claim C9: `distance` computes, for each axis,
`d = ((frac2 + 99.5) − frac1) mod 1 − 0.5` and returns the square root of
the metric quadratic form with angles converted to radians; for the cubic
cell a = b = c = 10, α = β = γ = 90° and atoms at fractional (0,0,0) and
(0.5,0,0), the result is exactly 5 (hence within the 1e-6 tolerance). -/
theorem c9_distance :
    (∀ (m : ShelxlMolecule) (atom1 atom2 : ShelxlAtom) (a b c alpha beta gamma : ℚ),
        m.cell = [a, b, c, alpha, beta, gamma] →
        m.distance atom1 atom2 = some (Real.sqrt
          ((a : ℝ) ^ 2 * ((pyMod ((atom2.frac.x + 99.5) - atom1.frac.x) 1 - 0.5 : ℚ) : ℝ) ^ 2
            + (b : ℝ) ^ 2 * ((pyMod ((atom2.frac.y + 99.5) - atom1.frac.y) 1 - 0.5 : ℚ) : ℝ) ^ 2
            + (c : ℝ) ^ 2 * ((pyMod ((atom2.frac.z + 99.5) - atom1.frac.z) 1 - 0.5 : ℚ) : ℝ) ^ 2
            + 2 * (b : ℝ) * (c : ℝ) * Real.cos ((alpha : ℝ) / 180 * Real.pi)
                * ((pyMod ((atom2.frac.y + 99.5) - atom1.frac.y) 1 - 0.5 : ℚ) : ℝ)
                * ((pyMod ((atom2.frac.z + 99.5) - atom1.frac.z) 1 - 0.5 : ℚ) : ℝ)
            + 2 * (a : ℝ) * (c : ℝ) * Real.cos ((beta : ℝ) / 180 * Real.pi)
                * ((pyMod ((atom2.frac.x + 99.5) - atom1.frac.x) 1 - 0.5 : ℚ) : ℝ)
                * ((pyMod ((atom2.frac.z + 99.5) - atom1.frac.z) 1 - 0.5 : ℚ) : ℝ)
            + 2 * (a : ℝ) * (b : ℝ) * Real.cos ((gamma : ℝ) / 180 * Real.pi)
                * ((pyMod ((atom2.frac.x + 99.5) - atom1.frac.x) 1 - 0.5 : ℚ) : ℝ)
                * ((pyMod ((atom2.frac.y + 99.5) - atom1.frac.y) 1 - 0.5 : ℚ) : ℝ))))
    ∧ mCubic.distance atomA atomB = some 5 := by
  refine ⟨fun m a1 a2 a b c al be ga h => distance_formula m a1 a2 a b c al be ga h, ?_⟩
  rw [distance_formula mCubic atomA atomB 10 10 10 90 90 90 rfl]
  have hdx : (pyMod ((atomB.frac.x + 99.5) - atomA.frac.x) 1 - 0.5 : ℚ) = -(1/2) := by decide
  have hdy : (pyMod ((atomB.frac.y + 99.5) - atomA.frac.y) 1 - 0.5 : ℚ) = 0 := by decide
  have hdz : (pyMod ((atomB.frac.z + 99.5) - atomA.frac.z) 1 - 0.5 : ℚ) = 0 := by decide
  rw [hdx, hdy, hdz]
  have harg :
      ((10 : ℚ) : ℝ) ^ 2 * ((-(1/2) : ℚ) : ℝ) ^ 2
        + ((10 : ℚ) : ℝ) ^ 2 * ((0 : ℚ) : ℝ) ^ 2
        + ((10 : ℚ) : ℝ) ^ 2 * ((0 : ℚ) : ℝ) ^ 2
        + 2 * ((10 : ℚ) : ℝ) * ((10 : ℚ) : ℝ) * Real.cos (((90 : ℚ) : ℝ) / 180 * Real.pi)
            * ((0 : ℚ) : ℝ) * ((0 : ℚ) : ℝ)
        + 2 * ((10 : ℚ) : ℝ) * ((10 : ℚ) : ℝ) * Real.cos (((90 : ℚ) : ℝ) / 180 * Real.pi)
            * ((-(1/2) : ℚ) : ℝ) * ((0 : ℚ) : ℝ)
        + 2 * ((10 : ℚ) : ℝ) * ((10 : ℚ) : ℝ) * Real.cos (((90 : ℚ) : ℝ) / 180 * Real.pi)
            * ((-(1/2) : ℚ) : ℝ) * ((0 : ℚ) : ℝ) = (25 : ℝ) := by
    push_cast
    ring
  rw [harg, show (25 : ℝ) = 5 ^ 2 by norm_num, Real.sqrt_sq (by norm_num : (0 : ℝ) ≤ 5)]

/-- Witness for C9: the axis/quadratic-form equation instantiated at the
cubic cell and the two concrete atoms. -/
theorem c9_distance_witness :
    mCubic.distance atomA atomB = some (Real.sqrt
      (((10 : ℚ) : ℝ) ^ 2 * ((pyMod ((atomB.frac.x + 99.5) - atomA.frac.x) 1 - 0.5 : ℚ) : ℝ) ^ 2
        + ((10 : ℚ) : ℝ) ^ 2 * ((pyMod ((atomB.frac.y + 99.5) - atomA.frac.y) 1 - 0.5 : ℚ) : ℝ) ^ 2
        + ((10 : ℚ) : ℝ) ^ 2 * ((pyMod ((atomB.frac.z + 99.5) - atomA.frac.z) 1 - 0.5 : ℚ) : ℝ) ^ 2
        + 2 * ((10 : ℚ) : ℝ) * ((10 : ℚ) : ℝ) * Real.cos (((90 : ℚ) : ℝ) / 180 * Real.pi)
            * ((pyMod ((atomB.frac.y + 99.5) - atomA.frac.y) 1 - 0.5 : ℚ) : ℝ)
            * ((pyMod ((atomB.frac.z + 99.5) - atomA.frac.z) 1 - 0.5 : ℚ) : ℝ)
        + 2 * ((10 : ℚ) : ℝ) * ((10 : ℚ) : ℝ) * Real.cos (((90 : ℚ) : ℝ) / 180 * Real.pi)
            * ((pyMod ((atomB.frac.x + 99.5) - atomA.frac.x) 1 - 0.5 : ℚ) : ℝ)
            * ((pyMod ((atomB.frac.z + 99.5) - atomA.frac.z) 1 - 0.5 : ℚ) : ℝ)
        + 2 * ((10 : ℚ) : ℝ) * ((10 : ℚ) : ℝ) * Real.cos (((90 : ℚ) : ℝ) / 180 * Real.pi)
            * ((pyMod ((atomB.frac.x + 99.5) - atomA.frac.x) 1 - 0.5 : ℚ) : ℝ)
            * ((pyMod ((atomB.frac.y + 99.5) - atomA.frac.y) 1 - 0.5 : ℚ) : ℝ))) :=
  c9_distance.1 mCubic atomA atomB 10 10 10 90 90 90 rfl

/-- Claim C10: every `SymmetryElement` — parsed from a textual expression
(with or without the centrosymmetric negation) or produced by lattice
translation — has all nine grid entries in {−1, 0, +1}; and `addSymm` never
modifies the existing elements of the symmetry list (its first
`|old list|` entries are exactly the old list). -/
theorem c10_grid_invariant :
    (∀ (symms : List String) (ctr : Bool) (s : SymmetryElement),
        SymmetryElement.ofSymms symms ctr = some s → gridOK s.matrix)
    ∧ (∀ (s latt s' : SymmetryElement),
        s.applyLattSymm latt = some s' → gridOK s'.matrix)
    ∧ (∀ (m : ShelxlMolecule) (d : List String) (m' : ShelxlMolecule),
        m.addSymm d = some m' → m'.symms.take m.symms.length = m.symms) :=
  ⟨fun _ _ _ h => gridOK_ofSymms h,
   fun _ _ _ h => gridOK_applyLattSymm h,
   fun _ _ _ h => addSymm_preserves_symms h⟩

set_option maxRecDepth 100000 in
unseal Rat.add Rat.mul Rat.sub Rat.inv Rat.ofScientific in
/-- Witness for C10: each clause instantiated on a concrete element — the
parse of `1/2-X,+Y,1/2+Z`, its lattice-translated copy, and `addSymm` on a
fresh molecule. -/
theorem c10_grid_invariant_witness :
    gridOK symC6.matrix ∧ gridOK symC6latt.matrix ∧
      (({ symms := [idSymm] } : ShelxlMolecule).symms.take
          (({} : ShelxlMolecule).symms.length) = ({} : ShelxlMolecule).symms) :=
  ⟨c10_grid_invariant.1 ["1/2-X", "+Y", "1/2+Z"] false symC6 (by decide),
   c10_grid_invariant.2.1 symC6 (lattEl ".5" ".5" ".5") symC6latt (by decide),
   c10_grid_invariant.2.2 {} ["X", "Y", "Z"] { symms := [idSymm] } (by decide)⟩

end CellOpt
